import Mathlib

/-
  Shallow embedding of djwt's `validate.ts` (JWT validation engine).

  Conventions of the embedding:
  * JSON values are the recursive tagged union `JsonValue`; JSON numbers are
    modelled as integers (the spec only uses them as Unix seconds).
  * JavaScript objects (header, payload, handler tables) are association lists
    keyed by `String`; property access `x[k]` / `k in x` is `List.lookup`.
  * A JS exception in flight is a `Thrown` value: internal code always throws
    `Error(message)` (`Thrown.withMessage (some m)`); a caller-supplied crit
    handler may throw any JS value, abstracted as `Thrown.nullish`
    (null / undefined — reading `.message` off it throws) or
    `Thrown.withMessage m` (any other value, `m` its string `message`
    property if it has one).
  * Fallible computation is `Except`; an async function's returned promise
    rejecting is the outer `Except.error` of `validateJwt`.
  * The external collaborators that live outside `validate.ts`
    (base64url decode, TextDecoder+JSON.parse, hex encoding, `makeJwt` from
    `create.ts`, and the wall clock `Date.now()/1000`) are the abstract
    parameters bundled in `Prims`.
-/

namespace Djwt

/-- The recursive tagged union of JSON values (design note §9 of the spec):
null / bool / number / string / array / object. Numbers are modelled as
integers (Unix seconds); objects as association lists. -/
inductive JsonValue where
  | null : JsonValue
  | bool (b : Bool) : JsonValue
  | num (n : Int) : JsonValue
  | str (s : String) : JsonValue
  | arr (xs : List JsonValue) : JsonValue
  | obj (fields : List (String × JsonValue)) : JsonValue

/-- The field list of a JS object (a `Jose` header or a payload). -/
abbrev Fields := List (String × JsonValue)

/-- A JS value thrown (or used to reject a promise). Internal code throws
`Error(message)`, i.e. `withMessage (some m)`. A crit handler may throw
anything: `nullish` is `null`/`undefined` (property access on it throws);
`withMessage none` is any other value without a string `message` property. -/
inductive Thrown where
  | nullish : Thrown
  | withMessage (m : Option String) : Thrown
deriving DecidableEq

/-- Throwing `Error(s)` (also `TypeError` / `RangeError` / `ReferenceError`:
only the `message` is ever observed by `validateJwt`'s catch block). -/
def errMsg (s : String) : Thrown := Thrown.withMessage (some s)

/-- Lift a computation that can only throw `Error(message)` into the
general exception monad. -/
def liftE {α : Type} : Except String α → Except Thrown α
  | .ok a => .ok a
  | .error m => .error (errMsg m)

/-- The external collaborators of `validate.ts`, out of scope of the source
file (spec §1: base64url codec, JSON parsing, hex encoding, the Signer of
`create.ts`, and the clock). Modelled from the spec: each is an abstract
function assumed correct; `makeJwt` is spec §4.5's
`sign(header, payload, key) → token`, and `now` is `Date.now() / 1000`. -/
structure Prims where
  b64decode : String → Except String (List Nat)
  jsonParse : List Nat → Except String JsonValue
  bytesToHex : List Nat → String
  makeJwt : Fields → JsonValue → String → Except String String
  now : Int

/-- `isObject` from `validate.ts`: not null, of object type, and not an
array — on `JsonValue` exactly the `obj` constructor. -/
def isObject : JsonValue → Bool
  | .obj _ => true
  | _ => false

/-- `hasProperty` from `validate.ts`: `key in x` on a JS object. -/
def hasProperty (key : String) (fields : Fields) : Bool :=
  (fields.lookup key).isSome

/-- `isExpired` from `validate.ts`: `exp + leeway < Date.now() / 1000`.
The TS signature defaults `leeway` to `0`; the binder is explicit here and
call sites pass the leeway they use (`validateJwtObject` passes `1`). -/
def isExpired (now exp leeway : Int) : Bool :=
  decide (exp + leeway < now)

/-- JS `string.split(sep)` for a one-character separator, on char lists:
`"" ↦ [""]`, separators at the ends and adjacent separators produce empty
segments, exactly as `String.prototype.split`. -/
def splitOnChar (c : Char) : List Char → List (List Char)
  | [] => [[]]
  | x :: xs =>
    let r := splitOnChar c xs
    if x == c then [] :: r
    else
      match r with
      | y :: ys => (x :: y) :: ys
      | [] => [[x]]

/-- `jwt.split(".")` from `parseAndDecode`. -/
def jsSplit (s : String) : List String :=
  (splitOnChar '.' s.toList).map (fun cs => String.mk cs)

/-- The decoded-but-unchecked result of `parseAndDecode`
(`JwtObjectWithUnknownProps` in the source: all three fields `unknown`). -/
structure JwtUnknown where
  header : JsonValue
  payload : JsonValue
  signature : JsonValue

/-- The structurally validated token (`JwtObject` in the source): the header
is known to be an object, the signature a (hex) string. The payload is kept
as an arbitrary JSON value because `validateJwtObject` never checks it is an
object before the cast. -/
structure JwtObject where
  header : Fields
  payload : JsonValue
  signature : String

/-- The first `.map` of `parseAndDecode`: base64url-decode every segment,
propagating the first decoder exception. -/
def decodeAll (P : Prims) : List String → Except String (List (List Nat))
  | [] => .ok []
  | s :: rest =>
    match P.b64decode s with
    | .error m => .error m
    | .ok b =>
      match decodeAll P rest with
      | .error m => .error m
      | .ok bs => .ok (b :: bs)

/-- One step of the second `.map` of `parseAndDecode`: the segment at index 2
is hex-encoded, every other segment is JSON-parsed
(`index === 2 ? convertUint8ArrayToHex(uint8Array) : JSON.parse(...)`). -/
def decodeSeg (P : Prims) (i : Nat) (b : List Nat) : Except String JsonValue :=
  if i = 2 then .ok (JsonValue.str (P.bytesToHex b)) else P.jsonParse b

/-- The second `.map` of `parseAndDecode`: apply `decodeSeg` positionally,
propagating the first parser exception. -/
def decodeSegs (P : Prims) : Nat → List (List Nat) → Except String (List JsonValue)
  | _, [] => .ok []
  | i, b :: rest =>
    match decodeSeg P i b with
    | .error m => .error m
    | .ok v =>
      match decodeSegs P (i + 1) rest with
      | .error m => .error m
      | .ok vs => .ok (v :: vs)

/-- The tail of `parseAndDecode`: `if (parsedArray.length !== 3) throw
TypeError("invalid serialization")`, then package `parsedArray[0..2]` as
header / payload / signature. -/
def pack3 : List JsonValue → Except String JwtUnknown
  | [h, p, s] => .ok ⟨h, p, s⟩
  | _ => .error "invalid serialization"

/-- `parseAndDecode` from `validate.ts`: split on '.', decode and parse every
segment, then require exactly 3 results and package them. -/
def parseAndDecode (P : Prims) (jwt : String) : Except String JwtUnknown :=
  match decodeAll P (jsSplit jwt) with
  | .error m => .error m
  | .ok bss =>
    match decodeSegs P 0 bss with
    | .error m => .error m
    | .ok parsed => pack3 parsed

/-- `validateJwtObject` from `validate.ts`: signature must be a string;
header must be an object whose `alg` is a string; when the payload is an
object with an `exp` key, `exp` must be a number and not expired under the
fixed 1-second leeway. Returns the fields unchanged. -/
def validateJwtObject (now : Int) (u : JwtUnknown) : Except String JwtObject :=
  match u.signature with
  | .str sig =>
    match u.header with
    | .obj hfields =>
      match hfields.lookup "alg" with
      | some (.str _) =>
        (match u.payload with
         | .obj pfields =>
           (match pfields.lookup "exp" with
            | some (.num e) =>
              if isExpired now e 1 then .error "the jwt is expired"
              else .ok ⟨hfields, u.payload, sig⟩
            | some _ => .error "claim 'exp' is not a number"
            | none => .ok ⟨hfields, u.payload, sig⟩)
         | _ => .ok ⟨hfields, u.payload, sig⟩)
      | _ => .error "header parameter 'alg' is not a string"
    | _ => .error "header parameter 'alg' is not a string"
  | _ => .error "the signature is no string"

/-- A crit handler (`Handlers` entry in the source): consumes the header
value stored under the extension's name, may suspend, may throw anything. -/
abbrev Handler := JsonValue → Except Thrown JsonValue

/-- The caller-supplied handler table, a JS object read with `handlers?.[str]`. -/
abbrev Handlers := String → Option Handler

/-- `handlers?.[str]`: optional chaining into the optional table. -/
def handlersLookup (handlers : Option Handlers) (s : String) : Option Handler :=
  match handlers with
  | none => none
  | some t => t s

/-- The `reservedWords` set of `checkHeaderCrit` (JWS §4.1.11 and friends). -/
def reservedWords : List String :=
  ["alg", "jku", "jwk", "kid", "x5u", "x5c", "x5t", "x5t#S256", "typ", "cty",
   "crit", "enc", "zip", "epk", "apu", "apv", "iv", "tag", "p2s", "p2c"]

/-- First guard of `checkHeaderCrit`: `!Array.isArray(header.crit) ||
header.crit.some(str => typeof str !== "string" || !str)` — true when the
`crit` value is missing, not an array, or has a non-string or empty entry. -/
def critIsMalformed : Option JsonValue → Bool
  | some (.arr xs) =>
    xs.any (fun v =>
      match v with
      | .str s => s == ""
      | _ => true)
  | _ => true

/-- The entries of the `crit` array as strings. After the first guard of
`checkHeaderCrit` every entry is a (non-empty) string, so this extraction is
the identity on the reachable inputs. -/
def critStrs : Option JsonValue → List String
  | some (.arr xs) =>
    xs.filterMap (fun v =>
      match v with
      | .str s => some s
      | _ => none)
  | _ => []

/-- The `Promise.all(header.crit.map(str => handlers![str](header[str])))` of
`checkHeaderCrit`: run the handler of every entry on the header value stored
under the entry's name; any rejection rejects the whole batch and no partial
result list is produced. (The guards of `checkHeaderCrit` guarantee each
lookup succeeds; the `none` branch mirrors the TypeError a failed `!`
assertion would raise and is unreachable from `checkHeaderCrit`.) -/
def runHandlers (header : Fields) (handlers : Option Handlers) : List String → Except Thrown (List JsonValue)
  | [] => .ok []
  | s :: rest =>
    match handlersLookup handlers s with
    | none => .error (errMsg "handler is not a function")
    | some f =>
      match f ((header.lookup s).getD JsonValue.null) with
      | .error e => .error e
      | .ok r =>
        match runHandlers header handlers rest with
        | .error e => .error e
        | .ok rs => .ok (r :: rs)

/-- `checkHeaderCrit` from `validate.ts`: `crit` must be an array of
non-empty strings, must avoid the reserved words, and every entry must both
occur as a header key and have a function registered in the handler table;
then every entry's handler runs on its header value. -/
def checkHeaderCrit (header : Fields) (handlers : Option Handlers) : Except Thrown (List JsonValue) :=
  if critIsMalformed (header.lookup "crit") then
    .error (errMsg "header parameter 'crit' must be an array of non-empty strings")
  else if (critStrs (header.lookup "crit")).any (fun s => reservedWords.contains s) then
    .error (errMsg "the 'crit' list contains a non-extension header parameter")
  else if (critStrs (header.lookup "crit")).any (fun s =>
      (header.lookup s).isNone || (handlersLookup handlers s).isNone) then
    .error (errMsg "critical extension header parameters are not understood")
  else
    runHandlers header handlers (critStrs (header.lookup "crit"))

/-- `handleJwtObject` from `validate.ts`: dispatch the crit handlers exactly
when the header has a `crit` key, pairing the untouched `JwtObject` with the
handler outputs (or with nothing when `crit` is absent). -/
def handleJwtObject (j : JwtObject) (critHandlers : Option Handlers) :
    Except Thrown (JwtObject × Option (List JsonValue)) :=
  if (j.header.lookup "crit").isSome then
    match checkHeaderCrit j.header critHandlers with
    | .error e => .error e
    | .ok r => .ok (j, some r)
  else .ok (j, none)

/-- The allow-list argument of `validateJwt`: one algorithm or an array
(`Algorithm | Algorithm[]` in the source; `Algorithm` is a string). -/
inductive AlgInput where
  | single (a : String) : AlgInput
  | many (as : List String) : AlgInput

/-- `validateAlgorithm` from `validate.ts`:
`(Array.isArray(algorithm) && algorithm.includes(jwtAlg)) || algorithm === jwtAlg`.
A string never `===`-equals an array, so the second disjunct only fires on a
single algorithm. -/
def validateAlgorithm (algorithm : AlgInput) (jwtAlg : String) : Bool :=
  match algorithm with
  | .single a => a == jwtAlg
  | .many as => as.contains jwtAlg

/-- `oldJwtObject.header.alg`: after `validateJwtObject` the `alg` property
is guaranteed to be a string; the default is unreachable on validated input. -/
def headerAlg (h : Fields) : String :=
  match h.lookup "alg" with
  | some (.str a) => a
  | _ => ""

/-- The signature comparison of `validateJwt`:
`oldJwtObject.signature !== parseAndDecode(...).signature` — string equality
when the freshly parsed signature is a string (it is: index 2 is hex-encoded),
and never equal otherwise. -/
def sigMatches (old : String) (fresh : JsonValue) : Bool :=
  match fresh with
  | .str s => old == s
  | _ => false

/-- The validation request (`Validation` in the source). -/
structure Validation where
  jwt : String
  key : String
  algorithm : AlgInput
  critHandlers : Option Handlers

/-- The error record of the Invalid shape (`JwtError` in the source): the
caught value's `message` property and a timestamp. -/
structure JwtError where
  message : Option String
  date : Int

/-- The tagged result union (`JwtValidation` in the source): the Valid shape
(`isValid: true`, with optional crit results) or the Invalid shape
(`isValid: false`, the original input echoed back, an error record, and the
`isExpired` discriminator). -/
inductive JwtValidation where
  | valid (header : Fields) (payload : JsonValue) (signature : String)
      (jwt : String) (critResult : Option (List JsonValue)) : JwtValidation
  | invalid (jwt : String) (error : JwtError) (isExpired : Bool) : JwtValidation

/-- The body of `validateJwt`'s `try` block: parse and decode, structurally
validate, dispatch crit handlers, gate the algorithm, re-sign via `makeJwt`
and compare signature segments. -/
def validateJwtCore (P : Prims) (v : Validation) :
    Except Thrown (JwtObject × Option (List JsonValue)) :=
  match parseAndDecode P v.jwt with
  | .error m => .error (errMsg m)
  | .ok u =>
    match validateJwtObject P.now u with
    | .error m => .error (errMsg m)
    | .ok j =>
      match handleJwtObject j v.critHandlers with
      | .error e => .error e
      | .ok (jo, critResult) =>
        if validateAlgorithm v.algorithm (headerAlg jo.header) then
          match P.makeJwt jo.header jo.payload v.key with
          | .error m => .error (errMsg m)
          | .ok tok =>
            match parseAndDecode P tok with
            | .error m => .error (errMsg m)
            | .ok fresh =>
              if sigMatches jo.signature fresh.signature then .ok (jo, critResult)
              else .error (errMsg "signatures don't match")
        else .error (errMsg ("no matching algorithm: " ++ headerAlg jo.header))

/-- `validateJwt` from `validate.ts`. The catch block builds the Invalid
shape from `err.message`, setting `isExpired` by comparing the message to
`"the jwt is expired"`. When the thrown value is nullish, the catch block's
own read of `err.message` throws a `TypeError`, which escapes the function
as a rejection of the returned promise (the outer `Except.error`; the exact
TypeError message is engine-dependent). -/
def validateJwt (P : Prims) (v : Validation) : Except Thrown JwtValidation :=
  match validateJwtCore P v with
  | .ok (j, critResult) =>
    .ok (.valid j.header j.payload j.signature v.jwt critResult)
  | .error (.withMessage m) =>
    .ok (.invalid v.jwt ⟨m, P.now⟩ (m == some "the jwt is expired"))
  | .error .nullish =>
    .error (errMsg "Cannot read properties of null (reading 'message')")

/-- A handler table none of whose handlers ever rejects with a nullish
value (`null` / `undefined`). -/
def HandlersNonNullish : Option Handlers → Prop
  | none => True
  | some t => ∀ s f, t s = some f → ∀ x, f x ≠ Except.error Thrown.nullish

/-- A `crit` value that passes the first guard of `checkHeaderCrit`,
characterized semantically: an array whose entries are all non-empty
strings. -/
def CritWellFormed (cv : Option JsonValue) : Prop :=
  ∃ xs, cv = some (JsonValue.arr xs) ∧
    ∀ v ∈ xs, ∃ s, v = JsonValue.str s ∧ s ≠ ""

theorem critIsMalformed_eq_false_iff (cv : Option JsonValue) :
    critIsMalformed cv = false ↔ CritWellFormed cv := by
  constructor
  · intro h
    match cv with
    | none => simp [critIsMalformed] at h
    | some (.arr xs) =>
      refine ⟨xs, rfl, ?_⟩
      intro v hv
      simp only [critIsMalformed, List.any_eq_false] at h
      have := h v hv
      match v with
      | .str s => exact ⟨s, rfl, by simpa using this⟩
      | .null | .bool _ | .num _ | .arr _ | .obj _ => simp at this
    | some .null | some (.bool _) | some (.num _) | some (.str _) | some (.obj _) =>
      simp [critIsMalformed] at h
  · rintro ⟨xs, rfl, hxs⟩
    simp only [critIsMalformed, List.any_eq_false]
    intro v hv
    obtain ⟨s, rfl, hs⟩ := hxs v hv
    simpa using hs

theorem critStrs_of_wellFormed (xs : List JsonValue)
    (h : ∀ v ∈ xs, ∃ s, v = JsonValue.str s ∧ s ≠ "") :
    xs = (critStrs (some (JsonValue.arr xs))).map JsonValue.str := by
  induction xs with
  | nil => rfl
  | cons v rest ih =>
    have hrest := ih (fun w hw => h w (List.mem_cons_of_mem v hw))
    obtain ⟨s, rfl, -⟩ := h v (List.mem_cons_self v rest)
    simpa [critStrs, List.filterMap_cons] using hrest

theorem mem_critStrs_of_mem (xs : List JsonValue) (s : String)
    (h : JsonValue.str s ∈ xs) : s ∈ critStrs (some (JsonValue.arr xs)) := by
  simp only [critStrs, List.mem_filterMap]
  exact ⟨JsonValue.str s, h, rfl⟩

theorem sigMatches_true_iff (old : String) (fresh : JsonValue) :
    sigMatches old fresh = true ↔ fresh = JsonValue.str old := by
  cases fresh with
  | str s =>
    simp only [sigMatches, beq_iff_eq, JsonValue.str.injEq]
    exact ⟨fun h => h.symm, fun h => h.symm⟩
  | null | bool b | num n | arr xs | obj fs => simp [sigMatches]

theorem decodeAll_length (P : Prims) (l : List String) (bs : List (List Nat))
    (h : decodeAll P l = .ok bs) : bs.length = l.length := by
  induction l generalizing bs with
  | nil => simp [decodeAll] at h; simp [← h]
  | cons s rest ih =>
    simp only [decodeAll] at h
    cases hb : P.b64decode s with
    | error m => rw [hb] at h; cases h
    | ok b =>
      rw [hb] at h
      cases hr : decodeAll P rest with
      | error m => rw [hr] at h; cases h
      | ok bs2 =>
        rw [hr] at h
        cases h
        simpa using ih bs2 hr

theorem decodeSegs_length (P : Prims) (i : Nat) (l : List (List Nat))
    (vs : List JsonValue) (h : decodeSegs P i l = .ok vs) : vs.length = l.length := by
  induction l generalizing i vs with
  | nil => simp [decodeSegs] at h; simp [← h]
  | cons b rest ih =>
    simp only [decodeSegs] at h
    cases hb : decodeSeg P i b with
    | error m => rw [hb] at h; cases h
    | ok v =>
      rw [hb] at h
      cases hr : decodeSegs P (i + 1) rest with
      | error m => rw [hr] at h; cases h
      | ok vs2 =>
        rw [hr] at h
        cases h
        simpa using ih (i + 1) vs2 hr

theorem decodeAll_error_of_mem (P : Prims) (l : List String) (s : String) (m : String)
    (hs : s ∈ l) (hb : P.b64decode s = .error m) :
    ∃ m2, decodeAll P l = .error m2 := by
  induction l with
  | nil => cases hs
  | cons t rest ih =>
    rcases List.mem_cons.mp hs with rfl | hmem
    · exact ⟨m, by simp [decodeAll, hb]⟩
    · cases ht : P.b64decode t with
      | error m3 => exact ⟨m3, by simp [decodeAll, ht]⟩
      | ok b =>
        obtain ⟨m2, hrec⟩ := ih hmem
        exact ⟨m2, by simp [decodeAll, ht, hrec]⟩

theorem decodeSegs_error_of_get (P : Prims) (l : List (List Nat)) (i k : Nat)
    (b : List Nat) (m : String) (hget : l[k]? = some b) (hne : i + k ≠ 2)
    (hp : P.jsonParse b = .error m) :
    ∃ m2, decodeSegs P i l = .error m2 := by
  induction l generalizing i k with
  | nil => simp at hget
  | cons hd rest ih =>
    cases k with
    | zero =>
      simp at hget
      have h2 : i ≠ 2 := by simpa using hne
      exact ⟨m, by simp [decodeSegs, decodeSeg, h2, hget, hp]⟩
    | succ k2 =>
      simp at hget
      cases hhd : decodeSeg P i hd with
      | error m3 => exact ⟨m3, by simp [decodeSegs, hhd]⟩
      | ok v =>
        have hne2 : (i + 1) + k2 ≠ 2 := by omega
        obtain ⟨m2, hrec⟩ := ih (i + 1) k2 hget hne2
        exact ⟨m2, by simp [decodeSegs, hhd, hrec]⟩

theorem pack3_error (l : List JsonValue) (hl : l.length ≠ 3) :
    pack3 l = .error "invalid serialization" := by
  match l with
  | [] => rfl
  | [_] => rfl
  | [_, _] => rfl
  | [_, _, _] => simp at hl
  | _ :: _ :: _ :: _ :: _ => rfl

theorem runHandlers_ok_spec (header : Fields) (handlers : Option Handlers)
    (strs : List String) (results : List JsonValue)
    (h : runHandlers header handlers strs = .ok results) :
    results.length = strs.length ∧
      ∀ (i : Nat) (t : String), strs[i]? = some t →
        ∃ f r, handlersLookup handlers t = some f ∧ results[i]? = some r ∧
          f ((header.lookup t).getD JsonValue.null) = .ok r := by
  induction strs generalizing results with
  | nil =>
    simp only [runHandlers] at h
    cases h
    refine ⟨rfl, ?_⟩
    intro i t ht
    simp at ht
  | cons s rest ih =>
    cases hf : handlersLookup handlers s with
    | none => simp [runHandlers, hf] at h
    | some f =>
      simp only [runHandlers, hf] at h
      cases hres : f ((header.lookup s).getD JsonValue.null) with
      | error e => simp [hres] at h
      | ok r =>
        simp only [hres] at h
        cases hrest : runHandlers header handlers rest with
        | error e => simp [hrest] at h
        | ok rs =>
          simp only [hrest] at h
          cases h
          obtain ⟨hlen, hspec⟩ := ih rs hrest
          refine ⟨by simpa using hlen, ?_⟩
          intro i t ht
          cases i with
          | zero =>
            simp at ht
            subst ht
            exact ⟨f, r, hf, by simp, hres⟩
          | succ i2 =>
            simp at ht
            obtain ⟨f2, r2, h1, h2, h3⟩ := hspec i2 t ht
            exact ⟨f2, r2, h1, by simpa using h2, h3⟩

theorem runHandlers_ne_nullish (header : Fields) (handlers : Option Handlers)
    (strs : List String) (hh : HandlersNonNullish handlers) :
    runHandlers header handlers strs ≠ .error Thrown.nullish := by
  induction strs with
  | nil => simp [runHandlers]
  | cons s rest ih =>
    simp only [runHandlers]
    cases hf : handlersLookup handlers s with
    | none => simp [errMsg]
    | some f =>
      have hfnn : ∀ x, f x ≠ Except.error Thrown.nullish := by
        match handlers, hf with
        | some t, hf => exact hh s f hf
      cases hres : f ((header.lookup s).getD JsonValue.null) with
      | error e =>
        have he : e ≠ Thrown.nullish := fun hc => hfnn _ (hc ▸ hres)
        simp [hres, he]
      | ok r =>
        cases hrest : runHandlers header handlers rest with
        | error e =>
          have he : e ≠ Thrown.nullish := fun hc => ih (hc ▸ hrest)
          simp [hres, hrest, he]
        | ok rs => simp [hres, hrest]

theorem checkHeaderCrit_ne_nullish (header : Fields) (handlers : Option Handlers)
    (hh : HandlersNonNullish handlers) :
    checkHeaderCrit header handlers ≠ .error Thrown.nullish := by
  unfold checkHeaderCrit
  split
  · simp [errMsg]
  · split
    · simp [errMsg]
    · split
      · simp [errMsg]
      · exact runHandlers_ne_nullish header handlers _ hh

theorem handleJwtObject_ne_nullish (j : JwtObject) (handlers : Option Handlers)
    (hh : HandlersNonNullish handlers) :
    handleJwtObject j handlers ≠ .error Thrown.nullish := by
  unfold handleJwtObject
  split
  · cases hc : checkHeaderCrit j.header handlers with
    | error e =>
      have he : e ≠ Thrown.nullish := fun hcontra =>
        checkHeaderCrit_ne_nullish j.header handlers hh (hcontra ▸ hc)
      simpa using he
    | ok r => simp
  · simp

theorem handleJwtObject_fst (j : JwtObject) (handlers : Option Handlers)
    (p : JwtObject × Option (List JsonValue)) (h : handleJwtObject j handlers = .ok p) :
    p.1 = j := by
  unfold handleJwtObject at h
  split at h
  · split at h
    · cases h
    · cases h; rfl
  · cases h; rfl

theorem handleJwtObject_crit_none (j : JwtObject) (handlers : Option Handlers)
    (p : JwtObject × Option (List JsonValue)) (h : handleJwtObject j handlers = .ok p)
    (hc : j.header.lookup "crit" = none) : p.2 = none := by
  unfold handleJwtObject at h
  rw [hc] at h
  simp at h
  simp [← h]

theorem validateJwtCore_ne_nullish (P : Prims) (v : Validation)
    (hh : HandlersNonNullish v.critHandlers) :
    validateJwtCore P v ≠ .error Thrown.nullish := by
  unfold validateJwtCore
  split
  · simp [errMsg]
  · split
    · simp [errMsg]
    · split
      · rename_i e heq
        have he : e ≠ Thrown.nullish := fun hc =>
          handleJwtObject_ne_nullish _ v.critHandlers hh (hc ▸ heq)
        simpa using he
      · split
        · split
          · simp [errMsg]
          · split
            · simp [errMsg]
            · split
              · simp
              · simp [errMsg]
        · simp [errMsg]

theorem validateJwt_of_core_error (P : Prims) (v : Validation) (m : String)
    (h : validateJwtCore P v = .error (errMsg m)) :
    validateJwt P v =
      .ok (.invalid v.jwt ⟨some m, P.now⟩ (some m == some "the jwt is expired")) := by
  unfold validateJwt
  rw [h]
  rfl

theorem core_error_of_parse (P : Prims) (v : Validation) (m : String)
    (h : parseAndDecode P v.jwt = .error m) :
    validateJwtCore P v = .error (errMsg m) := by
  unfold validateJwtCore
  rw [h]

theorem core_error_of_validate (P : Prims) (v : Validation) (u : JwtUnknown) (m : String)
    (hp : parseAndDecode P v.jwt = .ok u)
    (hv : validateJwtObject P.now u = .error m) :
    validateJwtCore P v = .error (errMsg m) := by
  unfold validateJwtCore
  simp only [hp, hv]

theorem core_error_of_crit (P : Prims) (v : Validation) (u : JwtUnknown) (j : JwtObject)
    (e : Thrown) (hp : parseAndDecode P v.jwt = .ok u)
    (hv : validateJwtObject P.now u = .ok j)
    (hc : handleJwtObject j v.critHandlers = .error e) :
    validateJwtCore P v = .error e := by
  unfold validateJwtCore
  simp only [hp, hv, hc]

theorem handleJwtObject_error_of_check (j : JwtObject) (handlers : Option Handlers)
    (e : Thrown) (hcrit : (j.header.lookup "crit").isSome = true)
    (hc : checkHeaderCrit j.header handlers = .error e) :
    handleJwtObject j handlers = .error e := by
  simp [handleJwtObject, hcrit, hc]

theorem core_error_sig_mismatch (P : Prims) (v : Validation) (u : JwtUnknown)
    (j : JwtObject) (cr : Option (List JsonValue)) (tok : String) (fresh : JwtUnknown)
    (hp : parseAndDecode P v.jwt = .ok u)
    (hv : validateJwtObject P.now u = .ok j)
    (hh : handleJwtObject j v.critHandlers = .ok (j, cr))
    (ha : validateAlgorithm v.algorithm (headerAlg j.header) = true)
    (hm : P.makeJwt j.header j.payload v.key = .ok tok)
    (hf : parseAndDecode P tok = .ok fresh)
    (hs : sigMatches j.signature fresh.signature = false) :
    validateJwtCore P v = .error (errMsg "signatures don't match") := by
  unfold validateJwtCore
  simp only [hp, hv, hh]
  simp [ha, hm, hf, hs]

theorem validateJwtCore_ok_inv (P : Prims) (v : Validation) (jo : JwtObject)
    (cr : Option (List JsonValue)) (h : validateJwtCore P v = .ok (jo, cr)) :
    ∃ u tok fresh,
      parseAndDecode P v.jwt = .ok u ∧
      validateJwtObject P.now u = .ok jo ∧
      handleJwtObject jo v.critHandlers = .ok (jo, cr) ∧
      validateAlgorithm v.algorithm (headerAlg jo.header) = true ∧
      P.makeJwt jo.header jo.payload v.key = .ok tok ∧
      parseAndDecode P tok = .ok fresh ∧
      sigMatches jo.signature fresh.signature = true := by
  unfold validateJwtCore at h
  cases hp : parseAndDecode P v.jwt with
  | error m => simp [hp] at h
  | ok u =>
    simp only [hp] at h
    cases hv : validateJwtObject P.now u with
    | error m => simp [hv] at h
    | ok j =>
      simp only [hv] at h
      cases hh : handleJwtObject j v.critHandlers with
      | error e => simp [hh] at h
      | ok p =>
        obtain ⟨j2, cr2⟩ := p
        have hj2 : j2 = j := handleJwtObject_fst j v.critHandlers (j2, cr2) hh
        subst hj2
        simp only [hh] at h
        by_cases ha : validateAlgorithm v.algorithm (headerAlg j2.header) = true
        · simp only [ha, if_true] at h
          cases hm : P.makeJwt j2.header j2.payload v.key with
          | error m => simp [hm] at h
          | ok tok =>
            simp only [hm] at h
            cases hf : parseAndDecode P tok with
            | error m => simp [hf] at h
            | ok fresh =>
              simp only [hf] at h
              by_cases hs : sigMatches j2.signature fresh.signature = true
              · simp only [hs, if_true] at h
                cases h
                exact ⟨u, tok, fresh, by simp [hp], by simp [hv], by simp [hh],
                  by simp [ha], by simp [hm], by simp [hf], by simp [hs]⟩
              · simp [hs] at h
        · simp [ha] at h

theorem validateJwt_valid_inv (P : Prims) (v : Validation) (h : Fields)
    (pl : JsonValue) (s jw : String) (cr : Option (List JsonValue))
    (hv : validateJwt P v = .ok (.valid h pl s jw cr)) :
    validateJwtCore P v = .ok (⟨h, pl, s⟩, cr) ∧ jw = v.jwt := by
  unfold validateJwt at hv
  cases hc : validateJwtCore P v with
  | ok p =>
    obtain ⟨jo, cr2⟩ := p
    simp only [hc] at hv
    cases hv
    exact ⟨rfl, rfl⟩
  | error e =>
    cases e with
    | nullish => simp [hc] at hv
    | withMessage m => simp [hc] at hv

theorem validateJwt_invalid_inv (P : Prims) (v : Validation) (jw : String)
    (e : JwtError) (b : Bool) (h : validateJwt P v = .ok (.invalid jw e b)) :
    ∃ m : Option String, validateJwtCore P v = .error (.withMessage m) ∧
      jw = v.jwt ∧ e = ⟨m, P.now⟩ ∧ b = (m == some "the jwt is expired") := by
  unfold validateJwt at h
  cases hc : validateJwtCore P v with
  | ok p =>
    obtain ⟨jo, cr⟩ := p
    simp [hc] at h
  | error e2 =>
    cases e2 with
    | nullish => simp [hc, errMsg] at h
    | withMessage m =>
      simp only [hc] at h
      cases h
      exact ⟨m, rfl, rfl, rfl, rfl⟩

theorem checkHeaderCrit_malformed (header : Fields) (handlers : Option Handlers)
    (h : critIsMalformed (header.lookup "crit") = true) :
    checkHeaderCrit header handlers =
      .error (errMsg "header parameter 'crit' must be an array of non-empty strings") := by
  unfold checkHeaderCrit
  rw [if_pos h]

theorem checkHeaderCrit_reserved (header : Fields) (handlers : Option Handlers)
    (xs : List JsonValue) (s : String)
    (hcv : header.lookup "crit" = some (JsonValue.arr xs))
    (hmem : JsonValue.str s ∈ xs) (hres : s ∈ reservedWords) :
    ∃ m, checkHeaderCrit header handlers = .error (errMsg m) ∧
      m ≠ "the jwt is expired" := by
  by_cases hmal : critIsMalformed (header.lookup "crit") = true
  · exact ⟨"header parameter 'crit' must be an array of non-empty strings",
      checkHeaderCrit_malformed header handlers hmal, by decide⟩
  · have hmal2 : critIsMalformed (header.lookup "crit") = false := by
      simpa using hmal
    have hany : (critStrs (header.lookup "crit")).any
        (fun t => reservedWords.contains t) = true := by
      rw [hcv]
      simp only [List.any_eq_true]
      exact ⟨s, mem_critStrs_of_mem xs s hmem, by simpa using hres⟩
    refine ⟨"the 'crit' list contains a non-extension header parameter", ?_, by decide⟩
    unfold checkHeaderCrit
    rw [if_neg (by simp [hmal2]), if_pos hany]

theorem checkHeaderCrit_not_understood (header : Fields) (handlers : Option Handlers)
    (s : String) (hwf : critIsMalformed (header.lookup "crit") = false)
    (hnores : ∀ t ∈ critStrs (header.lookup "crit"), t ∉ reservedWords)
    (hmem : s ∈ critStrs (header.lookup "crit"))
    (hfail : (header.lookup s).isNone = true ∨ (handlersLookup handlers s).isNone = true) :
    checkHeaderCrit header handlers =
      .error (errMsg "critical extension header parameters are not understood") := by
  have hno : (critStrs (header.lookup "crit")).any
      (fun t => reservedWords.contains t) = false := by
    simp only [List.any_eq_false]
    intro t ht
    simpa using hnores t ht
  have hany : (critStrs (header.lookup "crit")).any
      (fun t => (header.lookup t).isNone || (handlersLookup handlers t).isNone) = true := by
    simp only [List.any_eq_true]
    refine ⟨s, hmem, ?_⟩
    rcases hfail with h | h <;> simp [h]
  unfold checkHeaderCrit
  rw [if_neg (by simp [hwf]), if_neg (by simp only [hno]; simp), if_pos hany]

theorem checkHeaderCrit_ok_inv (header : Fields) (handlers : Option Handlers)
    (results : List JsonValue) (h : checkHeaderCrit header handlers = .ok results) :
    ∃ strs : List String,
      header.lookup "crit" = some (JsonValue.arr (strs.map JsonValue.str)) ∧
      results.length = strs.length ∧
      ∀ (i : Nat) (t : String), strs[i]? = some t →
        ∃ f r, handlersLookup handlers t = some f ∧ results[i]? = some r ∧
          f ((header.lookup t).getD JsonValue.null) = .ok r := by
  unfold checkHeaderCrit at h
  by_cases h1 : critIsMalformed (header.lookup "crit") = true
  · rw [if_pos h1] at h; cases h
  · rw [if_neg h1] at h
    by_cases h2 : (critStrs (header.lookup "crit")).any
        (fun t => reservedWords.contains t) = true
    · rw [if_pos h2] at h; cases h
    · rw [if_neg h2] at h
      by_cases h3 : (critStrs (header.lookup "crit")).any
          (fun t => (header.lookup t).isNone || (handlersLookup handlers t).isNone) = true
      · rw [if_pos h3] at h; cases h
      · rw [if_neg h3] at h
        have h1f : critIsMalformed (header.lookup "crit") = false := by simpa using h1
        obtain ⟨xs, hcv, hall⟩ := (critIsMalformed_eq_false_iff _).mp h1f
        obtain ⟨hlen, hspec⟩ := runHandlers_ok_spec header handlers _ results h
        refine ⟨critStrs (header.lookup "crit"), ?_, hlen, hspec⟩
        rw [hcv]
        exact congrArg (fun l => some (JsonValue.arr l)) (critStrs_of_wellFormed xs hall)

/-- A header announcing the custom critical extension `x`. -/
def hdrCrit : Fields :=
  [("alg", JsonValue.str "HS256"), ("crit", JsonValue.arr [JsonValue.str "x"]),
   ("x", JsonValue.num 1)]

/-- A header with no `crit` parameter. -/
def hdrPlain : Fields := [("alg", JsonValue.str "HS256")]

/-- A header whose `crit` lists the reserved word `alg`. -/
def hdrReserved : Fields :=
  [("alg", JsonValue.str "HS256"), ("crit", JsonValue.arr [JsonValue.str "alg"])]

/-- Concrete collaborator instances for closed evaluations: one byte per
character for base64url, a fixed JSON value for the header segment, a fixed
re-signed token from `makeJwt`, clock at 1000. -/
def mkPrims (hdr : JsonValue) (hexOf : List Nat → String) (tok : String) : Prims where
  b64decode := fun s => .ok (s.toList.map Char.toNat)
  jsonParse := fun b => if b = [104] then .ok hdr else .ok (JsonValue.obj [])
  bytesToHex := hexOf
  makeJwt := fun _ _ _ => .ok tok
  now := 1000

/-- Collaborators under which `"h.p.s"` carries the `crit: ["x"]` header and
re-signing reproduces the same signature. -/
def primsCrit : Prims := mkPrims (JsonValue.obj hdrCrit) (fun _ => "ff") "h.p.s"

/-- Collaborators under which `"h.p.s"` carries the plain header and
re-signing reproduces the same signature. -/
def primsPlain : Prims := mkPrims (JsonValue.obj hdrPlain) (fun _ => "ff") "h.p.s"

/-- Collaborators under which re-signing `"h.p.s"` produces `"h.p.t"`, whose
hex-encoded signature segment differs from the presented one. -/
def primsMismatch : Prims :=
  mkPrims (JsonValue.obj hdrPlain) (fun b => if b = [115] then "ff" else "00") "h.p.t"

/-- Collaborators under which `"h.p.s"` carries the reserved-word `crit`. -/
def primsReserved : Prims := mkPrims (JsonValue.obj hdrReserved) (fun _ => "ff") "h.p.s"

/-- Collaborators whose base64url decoder rejects every segment. -/
def primsBadB64 : Prims where
  b64decode := fun _ => .error "bad base64"
  jsonParse := fun _ => .ok JsonValue.null
  bytesToHex := fun _ => ""
  makeJwt := fun _ _ _ => .ok ""
  now := 7

/-- Collaborators whose JSON parser rejects every segment. -/
def primsBadJson : Prims where
  b64decode := fun s => .ok (s.toList.map Char.toNat)
  jsonParse := fun _ => .error "bad json"
  bytesToHex := fun _ => "ff"
  makeJwt := fun _ _ _ => .ok ""
  now := 7

/-- A handler table whose `x` handler rejects with a nullish value. -/
def throwNullish : Handlers :=
  fun s => if s = "x" then some (fun _ => .error Thrown.nullish) else none

/-- A handler table whose `x` handler throws an `Error` carrying exactly the
expiration message. -/
def throwExpiredMsg : Handlers :=
  fun s =>
    if s = "x" then some (fun _ => .error (errMsg "the jwt is expired")) else none

/-- A handler table whose `x` handler returns its input. -/
def echoHandler : Handlers :=
  fun s => if s = "x" then some (fun v => .ok v) else none

/-- C3: for a decoded token with a string signature, a valid header and a
payload object carrying a numeric `exp`, the structural validator fails with
the expiration error exactly when `exp + 1 < now` (fixed 1-second leeway) and
otherwise passes the token through; the general `isExpired` helper at its
default leeway `0` fails exactly when `exp < now`. -/
theorem expiration_boundary (now e : Int) (hf pf : Fields) (sig a : String)
    (halg : hf.lookup "alg" = some (JsonValue.str a))
    (hexp : pf.lookup "exp" = some (JsonValue.num e)) :
    (validateJwtObject now ⟨.obj hf, .obj pf, .str sig⟩ = .error "the jwt is expired"
      ↔ e + 1 < now)
    ∧ (¬ e + 1 < now →
        validateJwtObject now ⟨.obj hf, .obj pf, .str sig⟩ = .ok ⟨hf, .obj pf, sig⟩)
    ∧ isExpired now e 0 = decide (e < now) := by
  unfold validateJwtObject
  simp only [halg, hexp]
  refine ⟨?_, ?_, by simp [isExpired]⟩
  · by_cases hlt : e + 1 < now
    · simp [isExpired, hlt]
    · simp [isExpired, hlt]
  · intro hlt
    simp [isExpired, hlt]

/-- C3 witness: with the clock at 1000, `exp = 998` (now − 2) is rejected as
expired while `exp = 999` (now − 1) and `exp = 1001` (now + 1) pass. -/
theorem expiration_boundary_witness :
    validateJwtObject 1000 ⟨.obj hdrPlain, .obj [("exp", JsonValue.num 998)], .str "ab"⟩
        = .error "the jwt is expired"
    ∧ validateJwtObject 1000 ⟨.obj hdrPlain, .obj [("exp", JsonValue.num 999)], .str "ab"⟩
        = .ok ⟨hdrPlain, .obj [("exp", JsonValue.num 999)], "ab"⟩
    ∧ validateJwtObject 1000 ⟨.obj hdrPlain, .obj [("exp", JsonValue.num 1001)], .str "ab"⟩
        = .ok ⟨hdrPlain, .obj [("exp", JsonValue.num 1001)], "ab"⟩ :=
  ⟨(expiration_boundary 1000 998 hdrPlain [("exp", JsonValue.num 998)] "ab" "HS256"
      rfl rfl).1.mpr (by decide),
   (expiration_boundary 1000 999 hdrPlain [("exp", JsonValue.num 999)] "ab" "HS256"
      rfl rfl).2.1 (by decide),
   (expiration_boundary 1000 1001 hdrPlain [("exp", JsonValue.num 1001)] "ab" "HS256"
      rfl rfl).2.1 (by decide)⟩

/-- C6: `validateAlgorithm` returns true exactly when the declared algorithm
is string-equal to the single allowed value, or is a member of the allowed
array, with exact case-sensitive matching. -/
theorem algorithm_gate_membership (alg : String) :
    (∀ a, validateAlgorithm (AlgInput.single a) alg = true ↔ alg = a)
    ∧ (∀ as, validateAlgorithm (AlgInput.many as) alg = true ↔ alg ∈ as) := by
  constructor
  · intro a
    simp only [validateAlgorithm, beq_iff_eq]
    exact ⟨fun h => h.symm, fun h => h.symm⟩
  · intro as
    simp [validateAlgorithm]

/-- C6 witness: membership in an allow-list array accepts, and matching is
case-sensitive (`"hs256"` is not `"HS256"`). -/
theorem algorithm_gate_membership_witness :
    validateAlgorithm (AlgInput.many ["HS256", "HS512"]) "HS512" = true
    ∧ ¬ validateAlgorithm (AlgInput.single "HS256") "hs256" = true :=
  ⟨((algorithm_gate_membership "HS512").2 ["HS256", "HS512"]).mpr (by simp),
   fun hc =>
     absurd (((algorithm_gate_membership "hs256").1 "HS256").mp hc) (by decide)⟩

/-- C10: the structural validator never checks that the payload is an
object: with a string signature and a valid header, any non-object payload
passes through unchanged, and an object payload without an `exp` key also
passes through unchanged — the expiration check only applies to an object
payload carrying `exp`. -/
theorem payload_shape_unchecked :
    (∀ (now : Int) (hf : Fields) (pl : JsonValue) (sig a : String),
      hf.lookup "alg" = some (JsonValue.str a) → isObject pl = false →
      validateJwtObject now ⟨.obj hf, pl, .str sig⟩ = .ok ⟨hf, pl, sig⟩)
    ∧ (∀ (now : Int) (hf pf : Fields) (sig a : String),
      hf.lookup "alg" = some (JsonValue.str a) → pf.lookup "exp" = none →
      validateJwtObject now ⟨.obj hf, .obj pf, .str sig⟩ = .ok ⟨hf, .obj pf, sig⟩) := by
  constructor
  · intro now hf pl sig a halg hpl
    unfold validateJwtObject
    simp only [halg]
    cases pl with
    | obj pf => simp [isObject] at hpl
    | null | bool b | num n | str s2 | arr xs => rfl
  · intro now hf pf sig a halg hexp
    unfold validateJwtObject
    simp only [halg, hexp]

/-- C10 witness: number, array, null, boolean and string payloads all pass
the structural validator unchanged, as does an object payload without `exp`. -/
theorem payload_shape_unchecked_witness :
    validateJwtObject 7 ⟨.obj hdrPlain, .num 5, .str "ab"⟩ = .ok ⟨hdrPlain, .num 5, "ab"⟩
    ∧ validateJwtObject 7 ⟨.obj hdrPlain, .arr [], .str "ab"⟩ = .ok ⟨hdrPlain, .arr [], "ab"⟩
    ∧ validateJwtObject 7 ⟨.obj hdrPlain, .null, .str "ab"⟩ = .ok ⟨hdrPlain, .null, "ab"⟩
    ∧ validateJwtObject 7 ⟨.obj hdrPlain, .bool true, .str "ab"⟩
        = .ok ⟨hdrPlain, .bool true, "ab"⟩
    ∧ validateJwtObject 7 ⟨.obj hdrPlain, .str "pay", .str "ab"⟩
        = .ok ⟨hdrPlain, .str "pay", "ab"⟩
    ∧ validateJwtObject 7 ⟨.obj hdrPlain, .obj [("foo", .bool true)], .str "ab"⟩
        = .ok ⟨hdrPlain, .obj [("foo", .bool true)], "ab"⟩ :=
  ⟨payload_shape_unchecked.1 7 hdrPlain (.num 5) "ab" "HS256" rfl rfl,
   payload_shape_unchecked.1 7 hdrPlain (.arr []) "ab" "HS256" rfl rfl,
   payload_shape_unchecked.1 7 hdrPlain .null "ab" "HS256" rfl rfl,
   payload_shape_unchecked.1 7 hdrPlain (.bool true) "ab" "HS256" rfl rfl,
   payload_shape_unchecked.1 7 hdrPlain (.str "pay") "ab" "HS256" rfl rfl,
   payload_shape_unchecked.2 7 hdrPlain [("foo", .bool true)] "ab" "HS256" rfl rfl⟩

/-- C7: a header whose `crit` value is not an array of non-empty strings
makes `checkHeaderCrit` fail, and a well-typed `crit` array containing any of
the 20 reserved header-parameter names makes it fail too, regardless of the
handler table; through `validateJwt`, such a token yields the Invalid shape
with `isExpired = false`. -/
theorem crit_malformed_or_reserved_rejected :
    (∀ (header : Fields) (handlers : Option Handlers),
      ¬ CritWellFormed (header.lookup "crit") →
      checkHeaderCrit header handlers =
        .error (errMsg "header parameter 'crit' must be an array of non-empty strings"))
    ∧ (∀ (header : Fields) (handlers : Option Handlers) (xs : List JsonValue) (s : String),
      header.lookup "crit" = some (JsonValue.arr xs) → JsonValue.str s ∈ xs →
      s ∈ reservedWords →
      ∃ m, checkHeaderCrit header handlers = .error (errMsg m) ∧
        m ≠ "the jwt is expired")
    ∧ (∀ (P : Prims) (v : Validation) (u : JwtUnknown) (j : JwtObject),
      parseAndDecode P v.jwt = .ok u → validateJwtObject P.now u = .ok j →
      (j.header.lookup "crit").isSome = true →
      (¬ CritWellFormed (j.header.lookup "crit") ∨
        ∃ xs s, j.header.lookup "crit" = some (JsonValue.arr xs) ∧
          JsonValue.str s ∈ xs ∧ s ∈ reservedWords) →
      ∃ e, validateJwt P v = .ok (.invalid v.jwt e false)) := by
  have part1 : ∀ (header : Fields) (handlers : Option Handlers),
      ¬ CritWellFormed (header.lookup "crit") →
      checkHeaderCrit header handlers =
        .error (errMsg "header parameter 'crit' must be an array of non-empty strings") := by
    intro header handlers hwf
    cases hb : critIsMalformed (header.lookup "crit") with
    | true => exact checkHeaderCrit_malformed header handlers hb
    | false => exact absurd ((critIsMalformed_eq_false_iff _).mp hb) hwf
  refine ⟨part1, fun header handlers xs s hcv hmem hres =>
    checkHeaderCrit_reserved header handlers xs s hcv hmem hres, ?_⟩
  intro P v u j hp hv hcrit hbad
  have hcheck : ∃ m, checkHeaderCrit j.header v.critHandlers = .error (errMsg m) ∧
      m ≠ "the jwt is expired" := by
    rcases hbad with hwf | ⟨xs, s, hcv, hmem, hres⟩
    · exact ⟨_, part1 j.header v.critHandlers hwf, by decide⟩
    · exact checkHeaderCrit_reserved j.header v.critHandlers xs s hcv hmem hres
  obtain ⟨m, hcm, hmne⟩ := hcheck
  have hb : (some m == some "the jwt is expired") = false :=
    beq_eq_false_iff_ne.mpr (by simpa using hmne)
  refine ⟨⟨some m, P.now⟩, ?_⟩
  have := validateJwt_of_core_error P v m
    (core_error_of_crit P v u j (errMsg m) hp hv
      (handleJwtObject_error_of_check j v.critHandlers (errMsg m) hcrit hcm))
  rw [hb] at this
  exact this

/-- C7 witness: a numeric `crit` is rejected; `crit: ["alg"]` is rejected
with a non-expiration message; through `validateJwt`, a token whose header
has `crit: ["alg"]` is Invalid with `isExpired = false` even with a handler
table supplied. -/
theorem crit_malformed_or_reserved_rejected_witness :
    checkHeaderCrit [("crit", JsonValue.num 1)] none =
      .error (errMsg "header parameter 'crit' must be an array of non-empty strings")
    ∧ (∃ m, checkHeaderCrit hdrReserved none = .error (errMsg m) ∧
        m ≠ "the jwt is expired")
    ∧ (∃ e, validateJwt primsReserved
        ⟨"h.p.s", "k", AlgInput.single "HS256", some echoHandler⟩
        = .ok (.invalid "h.p.s" e false)) :=
  ⟨crit_malformed_or_reserved_rejected.1 [("crit", JsonValue.num 1)] none
    (by
      rintro ⟨xs, hx, -⟩
      have h3 : List.lookup "crit" [("crit", JsonValue.num 1)]
          = some (JsonValue.num 1) := rfl
      rw [h3] at hx
      cases Option.some.inj hx),
   crit_malformed_or_reserved_rejected.2.1 hdrReserved none [JsonValue.str "alg"] "alg"
     rfl (by simp) (by decide),
   crit_malformed_or_reserved_rejected.2.2 primsReserved
     ⟨"h.p.s", "k", AlgInput.single "HS256", some echoHandler⟩
     ⟨.obj hdrReserved, .obj [], .str "ff"⟩ ⟨hdrReserved, .obj [], "ff"⟩
     rfl rfl rfl
     (Or.inr ⟨[JsonValue.str "alg"], "alg", rfl, by simp, by decide⟩)⟩

/-- C8: with no `crit` key the dispatcher is skipped, and a Valid result
then carries no critical-handler outputs; with `crit` present and
well-formed, the dispatch fails with the "not understood" error whenever any
entry is missing as a header key or has no registered handler — the error is
a fixed value independent of the handler functions, so no handler output can
be observed. -/
theorem crit_dispatch_gate :
    (∀ (j : JwtObject) (handlers : Option Handlers),
      j.header.lookup "crit" = none → handleJwtObject j handlers = .ok (j, none))
    ∧ (∀ (P : Prims) (v : Validation) (h : Fields) (pl : JsonValue) (s jw : String)
        (cr : Option (List JsonValue)),
      validateJwt P v = .ok (.valid h pl s jw cr) → h.lookup "crit" = none →
      cr = none)
    ∧ (∀ (header : Fields) (handlers : Option Handlers) (s : String),
      CritWellFormed (header.lookup "crit") →
      (∀ t ∈ critStrs (header.lookup "crit"), t ∉ reservedWords) →
      s ∈ critStrs (header.lookup "crit") →
      (header.lookup s).isNone = true ∨ (handlersLookup handlers s).isNone = true →
      checkHeaderCrit header handlers =
        .error (errMsg "critical extension header parameters are not understood")) := by
  refine ⟨?_, ?_, ?_⟩
  · intro j handlers hc
    simp [handleJwtObject, hc]
  · intro P v h pl s jw cr hvalid hc
    obtain ⟨hcore, -⟩ := validateJwt_valid_inv P v h pl s jw cr hvalid
    obtain ⟨u, tok, fresh, -, -, hh, -⟩ := validateJwtCore_ok_inv P v ⟨h, pl, s⟩ cr hcore
    exact handleJwtObject_crit_none ⟨h, pl, s⟩ v.critHandlers (⟨h, pl, s⟩, cr) hh hc
  · intro header handlers s hwf hnores hmem hfail
    exact checkHeaderCrit_not_understood header handlers s
      ((critIsMalformed_eq_false_iff _).mpr hwf) hnores hmem hfail

/-- C8 witness: a header without `crit` skips the dispatcher; a full valid
run without `crit` carries no crit results; `crit: ["x"]` with no handler
table registered for `x` fails with the "not understood" error. -/
theorem crit_dispatch_gate_witness :
    handleJwtObject ⟨hdrPlain, JsonValue.obj [], "ff"⟩ (some echoHandler)
      = .ok (⟨hdrPlain, JsonValue.obj [], "ff"⟩, none)
    ∧ (none : Option (List JsonValue)) = none
    ∧ checkHeaderCrit hdrCrit none =
        .error (errMsg "critical extension header parameters are not understood") :=
  ⟨crit_dispatch_gate.1 ⟨hdrPlain, JsonValue.obj [], "ff"⟩ (some echoHandler) rfl,
   crit_dispatch_gate.2.1 primsPlain ⟨"h.p.s", "k", AlgInput.single "HS256", none⟩
     hdrPlain (JsonValue.obj []) "ff" "h.p.s" none rfl rfl,
   crit_dispatch_gate.2.2 hdrCrit none "x"
     ⟨[JsonValue.str "x"], rfl, by
       intro v hv
       simp at hv
       subst hv
       exact ⟨"x", rfl, by decide⟩⟩
     (by decide) (by decide) (Or.inr rfl)⟩

/-- C9: when the crit dispatch succeeds, the `crit` value is an array of
exactly the dispatched names, the output sequence has the same length, and
the output at index i is the result of the handler registered for crit[i]
applied to the header value stored under that name; conversely, if any
entry's handler fails, the dispatch cannot succeed (no partial result list
is ever produced — the result type carries either all outputs or an error). -/
theorem crit_dispatch_outputs :
    (∀ (header : Fields) (handlers : Option Handlers) (results : List JsonValue),
      checkHeaderCrit header handlers = .ok results →
      ∃ strs : List String,
        header.lookup "crit" = some (JsonValue.arr (strs.map JsonValue.str)) ∧
        results.length = strs.length ∧
        ∀ (i : Nat) (t : String), strs[i]? = some t →
          ∃ f r, handlersLookup handlers t = some f ∧ results[i]? = some r ∧
            f ((header.lookup t).getD JsonValue.null) = .ok r)
    ∧ (∀ (header : Fields) (handlers : Option Handlers) (t : String)
        (f : Handler) (e : Thrown),
      t ∈ critStrs (header.lookup "crit") → handlersLookup handlers t = some f →
      f ((header.lookup t).getD JsonValue.null) = .error e →
      ∀ results, checkHeaderCrit header handlers ≠ .ok results) := by
  refine ⟨checkHeaderCrit_ok_inv, ?_⟩
  intro header handlers t f e hmem hf hfail results hok
  obtain ⟨strs, hcv, hlen, hspec⟩ := checkHeaderCrit_ok_inv header handlers results hok
  have hstrs : critStrs (header.lookup "crit") = strs := by
    rw [hcv]
    simp only [critStrs, List.filterMap_map]
    exact List.filterMap_some strs
  rw [hstrs] at hmem
  obtain ⟨⟨i, hi⟩, hget⟩ := List.get_of_mem hmem
  have hidx : strs[i]? = some t := by
    rw [List.getElem?_eq_getElem hi]
    simpa [List.get_eq_getElem] using hget
  obtain ⟨f2, r, hf2, -, hr⟩ := hspec i t hidx
  have hff : f2 = f := Option.some.inj (hf2.symm.trans hf)
  rw [hff] at hr
  rw [hfail] at hr
  cases hr

/-- C9 witness: dispatching `crit: ["x"]` with the echo handler returns the
header value of `x` as the single output, and a table whose `x` handler
throws prevents any successful dispatch. -/
theorem crit_dispatch_outputs_witness :
    (∃ strs : List String,
      List.lookup "crit" hdrCrit = some (JsonValue.arr (strs.map JsonValue.str)) ∧
      [JsonValue.num 1].length = strs.length ∧
      ∀ (i : Nat) (t : String), strs[i]? = some t →
        ∃ f r, handlersLookup (some echoHandler) t = some f ∧
          [JsonValue.num 1][i]? = some r ∧
          f ((List.lookup t hdrCrit).getD JsonValue.null) = .ok r)
    ∧ ∀ results, checkHeaderCrit hdrCrit (some throwExpiredMsg) ≠ .ok results :=
  ⟨crit_dispatch_outputs.1 hdrCrit (some echoHandler) [JsonValue.num 1] rfl,
   crit_dispatch_outputs.2 hdrCrit (some throwExpiredMsg) "x"
     (fun _ => .error (errMsg "the jwt is expired")) (errMsg "the jwt is expired")
     (by decide) rfl rfl⟩

/-- C4: an input whose '.'-split does not yield exactly 3 segments, or any of
whose segments the base64url decoder rejects, or any of whose non-signature
segments the JSON parser rejects, makes `parseAndDecode` fail; and whenever
`parseAndDecode` fails (the decoder error messages never being the
expiration message), `validateJwt` returns the Invalid shape with
`isExpired = false` and the `jwt` field echoing the original unparsed input. -/
theorem malformed_input_rejected :
    (∀ (P : Prims) (jwt : String), (jsSplit jwt).length ≠ 3 →
      ∃ m, parseAndDecode P jwt = .error m)
    ∧ (∀ (P : Prims) (jwt s m : String), s ∈ jsSplit jwt →
      P.b64decode s = .error m → ∃ m2, parseAndDecode P jwt = .error m2)
    ∧ (∀ (P : Prims) (jwt : String) (bss : List (List Nat)) (k : Nat)
        (b : List Nat) (m : String),
      decodeAll P (jsSplit jwt) = .ok bss → bss[k]? = some b → k ≠ 2 →
      P.jsonParse b = .error m → ∃ m2, parseAndDecode P jwt = .error m2)
    ∧ (∀ (P : Prims) (v : Validation) (m : String),
      parseAndDecode P v.jwt = .error m → m ≠ "the jwt is expired" →
      validateJwt P v = .ok (.invalid v.jwt ⟨some m, P.now⟩ false)) := by
  refine ⟨?_, ?_, ?_, ?_⟩
  · intro P jwt hlen
    cases hda : decodeAll P (jsSplit jwt) with
    | error m => exact ⟨m, by simp [parseAndDecode, hda]⟩
    | ok bss =>
      cases hds : decodeSegs P 0 bss with
      | error m => exact ⟨m, by simp [parseAndDecode, hda, hds]⟩
      | ok parsed =>
        refine ⟨"invalid serialization", ?_⟩
        have hl : parsed.length ≠ 3 := by
          rw [decodeSegs_length P 0 bss parsed hds, decodeAll_length P _ bss hda]
          exact hlen
        simp [parseAndDecode, hda, hds, pack3_error parsed hl]
  · intro P jwt s m hs hb
    obtain ⟨m2, hda⟩ := decodeAll_error_of_mem P (jsSplit jwt) s m hs hb
    exact ⟨m2, by simp [parseAndDecode, hda]⟩
  · intro P jwt bss k b m hda hget hk hp
    obtain ⟨m2, hds⟩ := decodeSegs_error_of_get P bss 0 k b m hget (by omega) hp
    exact ⟨m2, by simp [parseAndDecode, hda, hds]⟩
  · intro P v m hp hne
    have hb : (some m == some "the jwt is expired") = false :=
      beq_eq_false_iff_ne.mpr (by simpa using hne)
    have hres := validateJwt_of_core_error P v m (core_error_of_parse P v m hp)
    rw [hb] at hres
    exact hres

/-- C4 witness: a two-segment input fails to decode; a base64url rejection
and a JSON rejection each fail to decode; and the full validator echoes the
unparsed two-segment input back in an Invalid, non-expired result. -/
theorem malformed_input_rejected_witness :
    (∃ m, parseAndDecode primsPlain "h.p" = .error m)
    ∧ (∃ m2, parseAndDecode primsBadB64 "h.p.s" = .error m2)
    ∧ (∃ m2, parseAndDecode primsBadJson "h.p.s" = .error m2)
    ∧ validateJwt primsBadB64 ⟨"h.p", "k", AlgInput.single "HS256", none⟩
        = .ok (.invalid "h.p" ⟨some "bad base64", 7⟩ false) :=
  ⟨malformed_input_rejected.1 primsPlain "h.p" (by decide),
   malformed_input_rejected.2.1 primsBadB64 "h.p.s" "h" "bad base64" (by decide) rfl,
   malformed_input_rejected.2.2.1 primsBadJson "h.p.s" [[104], [112], [115]] 0 [104]
     "bad json" rfl (by decide) (by decide) rfl,
   malformed_input_rejected.2.2.2 primsBadB64
     ⟨"h.p", "k", AlgInput.single "HS256", none⟩ "bad base64" rfl (by decide)⟩

/-- C5: `validateJwt` returns the Valid shape only if re-signing the decoded
header and payload with the verification key and decoding the freshly
produced token yields a signature segment exactly string-equal to the
presented one; when every earlier step succeeds but the segments differ, the
result is Invalid with `isExpired = false`. -/
theorem signature_resign_compare :
    (∀ (P : Prims) (v : Validation) (h : Fields) (pl : JsonValue) (s jw : String)
        (cr : Option (List JsonValue)),
      validateJwt P v = .ok (.valid h pl s jw cr) →
      ∃ tok fresh, P.makeJwt h pl v.key = .ok tok ∧
        parseAndDecode P tok = .ok fresh ∧ fresh.signature = JsonValue.str s)
    ∧ (∀ (P : Prims) (v : Validation) (u : JwtUnknown) (j : JwtObject)
        (cr : Option (List JsonValue)) (tok : String) (fresh : JwtUnknown),
      parseAndDecode P v.jwt = .ok u →
      validateJwtObject P.now u = .ok j →
      handleJwtObject j v.critHandlers = .ok (j, cr) →
      validateAlgorithm v.algorithm (headerAlg j.header) = true →
      P.makeJwt j.header j.payload v.key = .ok tok →
      parseAndDecode P tok = .ok fresh →
      sigMatches j.signature fresh.signature = false →
      validateJwt P v =
        .ok (.invalid v.jwt ⟨some "signatures don't match", P.now⟩ false)) := by
  constructor
  · intro P v h pl s jw cr hvalid
    obtain ⟨hcore, -⟩ := validateJwt_valid_inv P v h pl s jw cr hvalid
    obtain ⟨u, tok, fresh, -, -, -, -, hm, hf, hs⟩ :=
      validateJwtCore_ok_inv P v ⟨h, pl, s⟩ cr hcore
    exact ⟨tok, fresh, hm, hf, (sigMatches_true_iff _ _).mp hs⟩
  · intro P v u j cr tok fresh hp hv hh ha hm hf hs
    have hb : (some "signatures don't match" == some "the jwt is expired") = false := by
      decide
    have hres := validateJwt_of_core_error P v "signatures don't match"
      (core_error_sig_mismatch P v u j cr tok fresh hp hv hh ha hm hf hs)
    rw [hb] at hres
    exact hres

/-- C5 witness: a fully successful validation exhibits the re-derived token
whose decoded signature segment equals the presented one; and under
collaborators whose re-signing produces a different signature segment, the
otherwise-valid token is Invalid and not expired. -/
theorem signature_resign_compare_witness :
    (∃ tok fresh,
      primsPlain.makeJwt hdrPlain (JsonValue.obj []) "k" = .ok tok ∧
      parseAndDecode primsPlain tok = .ok fresh ∧
      fresh.signature = JsonValue.str "ff")
    ∧ validateJwt primsMismatch ⟨"h.p.s", "k", AlgInput.single "HS256", none⟩
        = .ok (.invalid "h.p.s" ⟨some "signatures don't match", 1000⟩ false) :=
  ⟨signature_resign_compare.1 primsPlain ⟨"h.p.s", "k", AlgInput.single "HS256", none⟩
     hdrPlain (JsonValue.obj []) "ff" "h.p.s" none rfl,
   signature_resign_compare.2 primsMismatch ⟨"h.p.s", "k", AlgInput.single "HS256", none⟩
     ⟨.obj hdrPlain, .obj [], .str "ff"⟩ ⟨hdrPlain, .obj [], "ff"⟩ none "h.p.t"
     ⟨.obj hdrPlain, .obj [], .str "00"⟩ rfl rfl rfl rfl rfl rfl rfl⟩

/-- C1 counterexample: with a crit handler that rejects with a nullish value
(`null` / `undefined`), the catch block's own read of `err.message` throws a
TypeError, and the promise returned by `validateJwt` rejects — an exception
escapes to the caller instead of a tagged result. -/
theorem validateJwt_escape_counterexample :
    validateJwt primsCrit ⟨"h.p.s", "k", AlgInput.single "HS256", some throwNullish⟩
      = .error (errMsg "Cannot read properties of null (reading 'message')") := rfl

/-- C1 (amended): provided no caller-supplied crit handler rejects with a
nullish value, `validateJwt` never lets an exception escape: for every
request it returns a tagged Valid/Invalid result. -/
theorem validateJwt_total_nonnullish (P : Prims) (v : Validation)
    (hh : HandlersNonNullish v.critHandlers) :
    ∃ r, validateJwt P v = .ok r := by
  cases hc : validateJwtCore P v with
  | ok p =>
    obtain ⟨jo, cr⟩ := p
    exact ⟨_, by unfold validateJwt; rw [hc]⟩
  | error e =>
    cases e with
    | nullish => exact absurd hc (validateJwtCore_ne_nullish P v hh)
    | withMessage m => exact ⟨_, by unfold validateJwt; rw [hc]⟩

/-- C1 witness: with no handler table at all (trivially nullish-free), a
concrete request produces a tagged result. -/
theorem validateJwt_total_nonnullish_witness :
    ∃ r, validateJwt primsPlain ⟨"h.p.s", "k", AlgInput.single "HS256", none⟩
      = .ok r :=
  validateJwt_total_nonnullish primsPlain
    ⟨"h.p.s", "k", AlgInput.single "HS256", none⟩ True.intro

/-- C2 counterexample: a crit-handler failure — not a token expiration —
whose thrown error carries exactly the message "the jwt is expired" makes
the catch block set `isExpired = true`, because the discriminator is string
equality on the caught error's message, not the failure kind. -/
theorem isExpired_flag_counterexample :
    validateJwt primsCrit ⟨"h.p.s", "k", AlgInput.single "HS256", some throwExpiredMsg⟩
      = .ok (.invalid "h.p.s" ⟨some "the jwt is expired", 1000⟩ true) := rfl

/-- C2 (amended): the `isExpired` flag of an Invalid result is true exactly
when the caught error's message equals "the jwt is expired" — the message
the expiration check throws (and which no other internal failure produces),
but which a caller-supplied handler or collaborator may also throw. -/
theorem isExpired_flag_mechanism :
    (∀ (P : Prims) (v : Validation) (jw : String) (err : JwtError) (b : Bool),
      validateJwt P v = .ok (.invalid jw err b) →
      (b = true ↔ err.message = some "the jwt is expired"))
    ∧ (∀ (now e : Int) (hf pf : Fields) (sig a : String),
      hf.lookup "alg" = some (JsonValue.str a) →
      pf.lookup "exp" = some (JsonValue.num e) → e + 1 < now →
      validateJwtObject now ⟨.obj hf, .obj pf, .str sig⟩ =
        .error "the jwt is expired") := by
  constructor
  · intro P v jw err b hinv
    obtain ⟨m, -, -, herr, hb⟩ := validateJwt_invalid_inv P v jw err b hinv
    subst herr
    subst hb
    simp [beq_iff_eq]
  · intro now e hf pf sig a halg hexp hlt
    unfold validateJwtObject
    simp only [halg, hexp]
    simp [isExpired, hlt]

/-- C2 witness: the flag mechanism applied to the concrete handler-thrown
"the jwt is expired" failure, and the expiration check producing exactly
that message on a genuinely expired token. -/
theorem isExpired_flag_mechanism_witness :
    (true = true ↔ (some "the jwt is expired" : Option String)
      = some "the jwt is expired")
    ∧ validateJwtObject 1000
        ⟨.obj hdrPlain, .obj [("exp", JsonValue.num 5)], .str "ab"⟩
        = .error "the jwt is expired" :=
  ⟨isExpired_flag_mechanism.1 primsCrit
     ⟨"h.p.s", "k", AlgInput.single "HS256", some throwExpiredMsg⟩
     "h.p.s" ⟨some "the jwt is expired", 1000⟩ true rfl,
   isExpired_flag_mechanism.2 1000 5 hdrPlain [("exp", JsonValue.num 5)] "ab" "HS256"
     rfl rfl (by decide)⟩

end Djwt
